import Mathlib

/-!
Verification of the MCP vehicle-search agent (server dispatcher in
`src/server/main.py`, client agent loop in `src/client/main.py`).

The development shallowly embeds the protocol and orchestration layer:
a JSON value universe with a canonical serializer (the wire encoding of a
tool call) and a strict parser (modelling `json.loads` on the integer
fragment of JSON), the client's regex-based tool-call extraction and
response stripping, the retrying tool invoker, ordinal reference
resolution, and the server's JSON-RPC dispatcher with its prompt catalog
and tool registry.
-/

/-! ## JSON values -/

/-- JSON value universe used throughout: the argument maps, tool results and
RPC payloads of the system. Numbers are integers (the system's payloads use
integral counts, years, ids); floats are outside the model. -/
inductive Json where
  | null
  | bool (b : Bool)
  | num (n : Int)
  | str (s : String)
  | arr (items : List Json)
  | obj (fields : List (String × Json))

mutual
/-- Structural equality test on JSON values (decidable equality is derived
from it below; the automatic derivation does not handle the nesting). -/
def jeq : Json → Json → Bool
  | .null, .null => true
  | .bool a, .bool b => a == b
  | .num a, .num b => a == b
  | .str a, .str b => a == b
  | .arr a, .arr b => jeqItems a b
  | .obj a, .obj b => jeqFields a b
  | _, _ => false

/-- Equality test on item lists. -/
def jeqItems : List Json → List Json → Bool
  | [], [] => true
  | a :: as, b :: bs => jeq a b && jeqItems as bs
  | _, _ => false

/-- Equality test on field lists. -/
def jeqFields : List (String × Json) → List (String × Json) → Bool
  | [], [] => true
  | (k, v) :: as, (k2, v2) :: bs => k == k2 && jeq v v2 && jeqFields as bs
  | _, _ => false
end

mutual
theorem jeq_iff : ∀ (a b : Json), jeq a b = true ↔ a = b
  | .null, b => by cases b <;> simp [jeq]
  | .bool x, b => by cases b <;> simp [jeq]
  | .num x, b => by cases b <;> simp [jeq]
  | .str x, b => by cases b <;> simp [jeq]
  | .arr xs, b => by cases b <;> simp [jeq] <;> exact jeqItems_iff xs _
  | .obj fs, b => by cases b <;> simp [jeq] <;> exact jeqFields_iff fs _
termination_by a _ => sizeOf a

theorem jeqItems_iff : ∀ (a b : List Json), jeqItems a b = true ↔ a = b
  | [], b => by cases b <;> simp [jeqItems]
  | x :: xs, [] => by simp [jeqItems]
  | x :: xs, y :: ys => by
      simp [jeqItems, Bool.and_eq_true, jeq_iff x y, jeqItems_iff xs ys]
termination_by a _ => sizeOf a

theorem jeqFields_iff : ∀ (a b : List (String × Json)), jeqFields a b = true ↔ a = b
  | [], b => by cases b <;> simp [jeqFields]
  | x :: xs, [] => by simp [jeqFields]
  | (k, v) :: xs, (k2, v2) :: ys => by
      simp [jeqFields, Bool.and_eq_true, jeq_iff v v2, jeqFields_iff xs ys,
        Prod.ext_iff, and_assoc]
termination_by a _ => sizeOf a
end

instance : DecidableEq Json := fun a b => decidable_of_iff _ (jeq_iff a b)

/-- Python truthiness of a JSON value (`if x:`): `None`, `False`, `0`, `""`,
`[]` and `{}` are falsy. -/
def Json.truthy : Json → Bool
  | .null => false
  | .bool b => b
  | .num n => n != 0
  | .str s => !(s == "")
  | .arr items => !items.isEmpty
  | .obj fields => !fields.isEmpty

/-- Field lookup in a JSON object field list (first match wins, as in a
Python dict built from distinct keys). -/
def jLookup : List (String × Json) → String → Option Json
  | [], _ => none
  | (k, v) :: rest, key => if k = key then some v else jLookup rest key

/-! ## Character classes (Python `\s`, `\d`, hex digits) -/

/-- Python regex `\s` and `str.strip()` whitespace (ASCII fragment: space,
tab, newline, carriage return, vertical tab, form feed), written on the
code point so that `omega` can use it. -/
def isSpaceChar (c : Char) : Bool :=
  c.toNat = 32 || c.toNat = 9 || c.toNat = 10 || c.toNat = 13 ||
    c.toNat = 11 || c.toNat = 12

/-- Decimal digit test, written on the code point so that `omega` can use it. -/
def isDigitChar (c : Char) : Bool := 48 ≤ c.toNat && c.toNat ≤ 57

/-- Drop leading whitespace (the effect of a leading `\s*` in a regex, and of
`json.loads` inter-token whitespace skipping). -/
def dropSpaces : List Char → List Char
  | [] => []
  | c :: cs => if isSpaceChar c then dropSpaces cs else c :: cs

/-- Split off the maximal leading run of decimal digits. -/
def digitSpan : List Char → List Char × List Char
  | [] => ([], [])
  | c :: cs =>
    if isDigitChar c then
      let (ds, rest) := digitSpan cs
      (c :: ds, rest)
    else ([], c :: cs)

/-- Value of a digit run, most significant first. -/
def digitsVal (ds : List Char) : Nat :=
  ds.foldl (fun acc c => acc * 10 + (c.toNat - 48)) 0

/-- Decimal digit character for `d < 10`. -/
def decDigit (d : Nat) : Char := Char.ofNat (48 + d)

/-- Decimal representation of a natural number, most significant digit
first (accumulator form). -/
def natDigs (n : Nat) (acc : List Char) : List Char :=
  if h : n < 10 then decDigit n :: acc
  else natDigs (n / 10) (decDigit (n % 10) :: acc)
termination_by n
decreasing_by exact Nat.div_lt_self (by omega) (by omega)

/-- Decimal representation of an integer, as `json.dumps` renders it. -/
def intChars (i : Int) : List Char :=
  if i < 0 then '-' :: natDigs i.natAbs [] else natDigs i.natAbs []

/-- Lower-case hexadecimal digit character for `d < 16`. -/
def hexDigit (d : Nat) : Char :=
  if d < 10 then Char.ofNat (48 + d) else Char.ofNat (87 + d)

/-- Value of a hexadecimal digit character, if it is one. -/
def hexDigitVal (c : Char) : Option Nat :=
  if 48 ≤ c.toNat && c.toNat ≤ 57 then some (c.toNat - 48)
  else if 97 ≤ c.toNat && c.toNat ≤ 102 then some (c.toNat - 87)
  else if 65 ≤ c.toNat && c.toNat ≤ 70 then some (c.toNat - 55)
  else none

/-- Value of four hexadecimal digit characters (a `\uXXXX` escape body). -/
def hexQuad (a b c d : Char) : Option Nat := do
  let va ← hexDigitVal a
  let vb ← hexDigitVal b
  let vc ← hexDigitVal c
  let vd ← hexDigitVal d
  return ((va * 16 + vb) * 16 + vc) * 16 + vd

/-! ## Serializer (the wire encoding of JSON, as `json.dumps` emits it:
`", "` and `": "` separators, `"` and `\` escaped, control characters as
`\u00XX`) -/

/-- Escape one character of a JSON string body. -/
def escChar (c : Char) : List Char :=
  if c = '"' then ['\\', '"']
  else if c = '\\' then ['\\', '\\']
  else if c.toNat < 32 then
    ['\\', 'u', '0', '0', hexDigit (c.toNat / 16), hexDigit (c.toNat % 16)]
  else [c]

/-- Escape a whole string body. -/
def escBody (cs : List Char) : List Char := cs.flatMap escChar

mutual
/-- Canonical serialization of a JSON value to characters. -/
def jdump : Json → List Char
  | .null => 'n' :: 'u' :: 'l' :: 'l' :: []
  | .bool true => 't' :: 'r' :: 'u' :: 'e' :: []
  | .bool false => 'f' :: 'a' :: 'l' :: 's' :: 'e' :: []
  | .num i => intChars i
  | .str s => '"' :: escBody s.data ++ ['"']
  | .arr [] => '[' :: [']']
  | .arr (x :: xs) => '[' :: (jdump x ++ jdumpTail xs) ++ [']']
  | .obj [] => '{' :: ['}']
  | .obj (f :: fs) => '{' :: (jdumpField f ++ jdumpFieldTail fs) ++ ['}']

/-- Remaining array items, each preceded by the `", "` separator. -/
def jdumpTail : List Json → List Char
  | [] => []
  | x :: xs => ',' :: ' ' :: (jdump x ++ jdumpTail xs)

/-- One object field: quoted escaped key, `": "`, value. -/
def jdumpField : String × Json → List Char
  | (k, v) => '"' :: escBody k.data ++ '"' :: ':' :: ' ' :: jdump v

/-- Remaining object fields, each preceded by the `", "` separator. -/
def jdumpFieldTail : List (String × Json) → List Char
  | [] => []
  | f :: fs => ',' :: ' ' :: (jdumpField f ++ jdumpFieldTail fs)
end

/-! ## Strict JSON parser (model of `json.loads` on the integer fragment) -/

/-- Short escape codes accepted after a backslash in a JSON string. -/
def escCode (c : Char) : Option Char :=
  match c with
  | 'n' => some '\n'
  | 't' => some '\t'
  | 'r' => some '\r'
  | 'b' => some (Char.ofNat 8)
  | 'f' => some (Char.ofNat 12)
  | '"' => some '"'
  | '\\' => some '\\'
  | '/' => some '/'
  | _ => none

/-- Code points the parser will rebuild into a character (the basic
multilingual plane below the surrogate range; `json.dumps` only emits
`\u00XX`, so the round trip never needs more). -/
def charFromNat (n : Nat) : Option Char :=
  if h : n < 55296 then some (Char.ofNat n) else none

/-- Parse a JSON string body after the opening quote, strict mode: raw
control characters are rejected, as `json.loads` rejects them. Returns the
decoded characters and the input after the closing quote. -/
def strBody : List Char → Option (List Char × List Char)
  | [] => none
  | c :: cs =>
    if c = '"' then some ([], cs)
    else if c = '\\' then
      match cs with
      | [] => none
      | e :: cs2 =>
        if e = 'u' then
          match cs2 with
          | h1 :: h2 :: h3 :: h4 :: cs3 =>
            match hexQuad h1 h2 h3 h4 with
            | none => none
            | some n =>
              match charFromNat n with
              | none => none
              | some ch =>
                match strBody cs3 with
                | some (body, rest) => some (ch :: body, rest)
                | none => none
          | _ => none
        else
          match escCode e with
          | none => none
          | some ch =>
            match strBody cs2 with
            | some (body, rest) => some (ch :: body, rest)
            | none => none
    else if c.toNat < 32 then none
    else
      match strBody cs with
      | some (body, rest) => some (c :: body, rest)
      | none => none

mutual
/-- Parse one JSON value. Fuel is structural; any fuel above the input
length consumed by the value suffices (proved below). -/
def jparse : Nat → List Char → Option (Json × List Char)
  | 0, _ => none
  | fuel + 1, s0 =>
    match dropSpaces s0 with
    | [] => none
    | c :: cs =>
      if c = 'n' then
        match cs with
        | 'u' :: 'l' :: 'l' :: rest => some (.null, rest)
        | _ => none
      else if c = 't' then
        match cs with
        | 'r' :: 'u' :: 'e' :: rest => some (.bool true, rest)
        | _ => none
      else if c = 'f' then
        match cs with
        | 'a' :: 'l' :: 's' :: 'e' :: rest => some (.bool false, rest)
        | _ => none
      else if c = '"' then
        match strBody cs with
        | some (body, rest) => some (.str (String.mk body), rest)
        | none => none
      else if c = '-' then
        match digitSpan cs with
        | ([], _) => none
        | (ds, rest) => some (.num (-(digitsVal ds : Int)), rest)
      else if isDigitChar c then
        match digitSpan (c :: cs) with
        | (ds, rest) => some (.num (digitsVal ds : Int), rest)
      else if c = '[' then
        match dropSpaces cs with
        | [] => none
        | c2 :: cs2 =>
          if c2 = ']' then some (.arr [], cs2)
          else match jparseItems fuel (c2 :: cs2) with
               | some (items, rest) => some (.arr items, rest)
               | none => none
      else if c = '{' then
        match dropSpaces cs with
        | [] => none
        | c2 :: cs2 =>
          if c2 = '}' then some (.obj [], cs2)
          else match jparseFields fuel (c2 :: cs2) with
               | some (fields, rest) => some (.obj fields, rest)
               | none => none
      else none

/-- Parse one-or-more comma-separated array items up to the closing `]`. -/
def jparseItems : Nat → List Char → Option (List Json × List Char)
  | 0, _ => none
  | fuel + 1, s =>
    match jparse fuel s with
    | none => none
    | some (v, r) =>
      match dropSpaces r with
      | [] => none
      | c2 :: r2 =>
        if c2 = ',' then
          match jparseItems fuel r2 with
          | some (items, rest) => some (v :: items, rest)
          | none => none
        else if c2 = ']' then some ([v], r2)
        else none

/-- Parse one-or-more comma-separated object fields up to the closing `}`. -/
def jparseFields : Nat → List Char → Option (List (String × Json) × List Char)
  | 0, _ => none
  | fuel + 1, s =>
    match dropSpaces s with
    | [] => none
    | c0 :: r0 =>
      if c0 = '"' then
        match strBody r0 with
        | none => none
        | some (key, r1) =>
          match dropSpaces r1 with
          | [] => none
          | c1 :: r2 =>
            if c1 = ':' then
              match jparse fuel r2 with
              | none => none
              | some (v, r3) =>
                match dropSpaces r3 with
                | [] => none
                | c3 :: r4 =>
                  if c3 = ',' then
                    match jparseFields fuel r4 with
                    | some (fields, rest) => some ((String.mk key, v) :: fields, rest)
                    | none => none
                  else if c3 = '}' then some ([(String.mk key, v)], r4)
                  else none
            else none
      else none
end

/-- Model of `json.loads` on a candidate block: parse one value and require
that nothing but whitespace remains. -/
def loadsJson (cs : List Char) : Option Json :=
  match jparse (cs.length + 1) cs with
  | some (v, rest) => if dropSpaces rest = [] then some v else none
  | none => none

/-! ## Digit and whitespace lemmas -/

theorem decDigit_toNat {d : Nat} (h : d < 10) : (decDigit d).toNat = 48 + d := by
  interval_cases d <;> decide

theorem isDigitChar_decDigit {d : Nat} (h : d < 10) : isDigitChar (decDigit d) = true := by
  interval_cases d <;> decide

theorem natDigs_acc (n : Nat) : ∀ acc, natDigs n acc = natDigs n [] ++ acc := by
  induction n using Nat.strongRecOn with
  | _ n ih =>
    intro acc
    by_cases h : n < 10
    · rw [natDigs, dif_pos h]
      conv_rhs => rw [natDigs, dif_pos h]
      simp
    · rw [natDigs, dif_neg h]
      conv_rhs => rw [natDigs, dif_neg h]
      rw [ih (n / 10) (Nat.div_lt_self (by omega) (by omega)),
        ih (n / 10) (Nat.div_lt_self (by omega) (by omega)) [decDigit (n % 10)]]
      simp

theorem natDigs_step (n : Nat) :
    natDigs n [] = (if n < 10 then [] else natDigs (n / 10) []) ++ [decDigit (n % 10)] := by
  by_cases h : n < 10
  · rw [natDigs, dif_pos h, if_pos h, Nat.mod_eq_of_lt h]
    simp
  · rw [natDigs, dif_neg h, if_neg h, natDigs_acc]

theorem natDigs_ne_nil (n : Nat) : natDigs n [] ≠ [] := by
  rw [natDigs_step]; simp

theorem natDigs_digits (n : Nat) : ∀ c ∈ natDigs n [], isDigitChar c = true := by
  induction n using Nat.strongRecOn with
  | _ n ih =>
    rw [natDigs_step]
    intro c hc
    rcases List.mem_append.mp hc with h | h
    · by_cases h10 : n < 10
      · simp [h10] at h
      · exact ih (n / 10) (Nat.div_lt_self (by omega) (by omega)) c (by simpa [h10] using h)
    · rw [List.mem_singleton] at h
      exact h ▸ isDigitChar_decDigit (Nat.mod_lt _ (by omega))

theorem digitsVal_natDigs (n : Nat) : digitsVal (natDigs n []) = n := by
  induction n using Nat.strongRecOn with
  | _ n ih =>
    rw [natDigs_step]
    by_cases h : n < 10
    · simp only [if_pos h, List.nil_append, digitsVal, List.foldl_cons, List.foldl_nil]
      rw [decDigit_toNat (Nat.mod_lt _ (by omega))]
      omega
    · simp only [if_neg h, digitsVal, List.foldl_append, List.foldl_cons, List.foldl_nil]
      have := ih (n / 10) (Nat.div_lt_self (by omega) (by omega))
      simp only [digitsVal] at this
      rw [this, decDigit_toNat (Nat.mod_lt _ (by omega))]
      omega

/-- The next character cannot extend a digit run: empty input or a non-digit
head. Every jdump boundary character (`,`, `]`, `}`, quote, end) qualifies. -/
def digitFence : List Char → Bool
  | [] => true
  | c :: _ => !isDigitChar c

theorem digitSpan_fence {cs : List Char} (h : digitFence cs = true) :
    digitSpan cs = ([], cs) := by
  match cs with
  | [] => rfl
  | c :: t =>
    simp only [digitFence, Bool.not_eq_true'] at h
    simp [digitSpan, h]

theorem digitSpan_run (ds : List Char) (hds : ∀ c ∈ ds, isDigitChar c = true)
    (rest : List Char) (hrest : digitFence rest = true) :
    digitSpan (ds ++ rest) = (ds, rest) := by
  induction ds with
  | nil => simpa using digitSpan_fence hrest
  | cons c t ih =>
    have hc := hds c (by simp)
    have ht := ih (fun x hx => hds x (by simp [hx]))
    simp [digitSpan, hc, ht]

theorem dropSpaces_cons {c : Char} {t : List Char} (h : isSpaceChar c = false) :
    dropSpaces (c :: t) = c :: t := by
  simp [dropSpaces, h]

theorem isSpaceChar_of_digit {c : Char} (h : isDigitChar c = true) :
    isSpaceChar c = false := by
  simp only [isDigitChar, Bool.and_eq_true, decide_eq_true_eq] at h
  simp only [isSpaceChar, Bool.or_eq_false_iff, decide_eq_false_iff_not]
  omega

/-- Every character class fact a digit head needs to steer the parser. -/
theorem digit_head_facts {c : Char} (h : isDigitChar c = true) :
    c ≠ 'n' ∧ c ≠ 't' ∧ c ≠ 'f' ∧ c ≠ '"' ∧ c ≠ '-' ∧ c ≠ '[' ∧ c ≠ '{' ∧
      c ≠ ']' ∧ c ≠ '}' ∧ c ≠ ',' ∧ isSpaceChar c = false := by
  refine ⟨?_, ?_, ?_, ?_, ?_, ?_, ?_, ?_, ?_, ?_, isSpaceChar_of_digit h⟩ <;>
    (intro he; rw [he] at h; exact absurd h (by decide))

/-! ## String escape round trip -/

theorem hexDigitVal_hexDigit {d : Nat} (h : d < 16) : hexDigitVal (hexDigit d) = some d := by
  interval_cases d <;> decide

theorem strBody_escChar (c : Char) (rest : List Char) {b r : List Char}
    (hr : strBody rest = some (b, r)) :
    strBody (escChar c ++ rest) = some (c :: b, r) := by
  by_cases h1 : c = '"'
  · subst h1
    rw [show escChar '"' = ['\\', '"'] from by decide, List.cons_append,
      List.cons_append, List.nil_append, strBody.eq_def]
    simp [escCode, hr]
  · by_cases h2 : c = '\\'
    · subst h2
      rw [show escChar '\\' = ['\\', '\\'] from by decide, List.cons_append,
        List.cons_append, List.nil_append, strBody.eq_def]
      simp [escCode, hr]
    · by_cases h3 : c.toNat < 32
      · rw [show escChar c = ['\\', 'u', '0', '0', hexDigit (c.toNat / 16),
            hexDigit (c.toNat % 16)] from by rw [escChar, if_neg h1, if_neg h2, if_pos h3]]
        have hq : hexQuad '0' '0' (hexDigit (c.toNat / 16)) (hexDigit (c.toNat % 16))
            = some c.toNat := by
          rw [hexQuad]
          rw [show hexDigitVal '0' = some 0 from by decide,
            hexDigitVal_hexDigit (show c.toNat / 16 < 16 by omega),
            hexDigitVal_hexDigit (show c.toNat % 16 < 16 from Nat.mod_lt _ (by omega))]
          simp only [Option.bind_eq_bind, Option.some_bind, Option.pure_def]
          congr 1
          omega
        have hcn : charFromNat c.toNat = some c := by
          rw [charFromNat, dif_pos (by omega), Char.ofNat_toNat]
        simp only [List.cons_append, List.nil_append]
        rw [strBody.eq_def]
        simp [hq, hcn, hr]
      · rw [show escChar c = [c] from by rw [escChar, if_neg h1, if_neg h2, if_neg h3],
          List.cons_append, List.nil_append, strBody.eq_def]
        simp [h1, h2, h3, hr]

theorem strBody_escBody (cs : List Char) : ∀ rest : List Char,
    strBody (escBody cs ++ '"' :: rest) = some (cs, rest) := by
  induction cs with
  | nil =>
    intro rest
    rw [show escBody [] = [] from rfl, List.nil_append, strBody.eq_def]
    simp
  | cons c t ih =>
    intro rest
    show strBody ((c :: t).flatMap escChar ++ '"' :: rest) = _
    rw [List.flatMap_cons, List.append_assoc]
    exact strBody_escChar c _ (ih rest)

/-! ## Round trip: the strict parser inverts the serializer -/

theorem strMk_data (s : String) : String.mk s.data = s := rfl

theorem natDigs_head (n : Nat) : ∃ c t, natDigs n [] = c :: t ∧ isDigitChar c = true := by
  match h : natDigs n [] with
  | [] => exact absurd h (natDigs_ne_nil n)
  | c :: t => exact ⟨c, t, rfl, natDigs_digits n c (h ▸ List.mem_cons_self c t)⟩

theorem jdump_head (v : Json) :
    ∃ c t, jdump v = c :: t ∧ isSpaceChar c = false ∧ c ≠ ']' ∧ c ≠ '}' := by
  cases v with
  | null =>
    refine ⟨'n', _, rfl, ?_, ?_, ?_⟩ <;> decide
  | bool b =>
    cases b <;> refine ⟨_, _, rfl, ?_, ?_, ?_⟩ <;> decide
  | str s =>
    refine ⟨'"', _, rfl, ?_, ?_, ?_⟩ <;> decide
  | arr items =>
    cases items <;> refine ⟨'[', _, rfl, ?_, ?_, ?_⟩ <;> decide
  | obj fields =>
    cases fields <;> refine ⟨'{', _, rfl, ?_, ?_, ?_⟩ <;> decide
  | num i =>
    by_cases hi : i < 0
    · refine ⟨'-', natDigs i.natAbs [], ?_, by decide, by decide, by decide⟩
      simp [jdump, intChars, hi]
    · obtain ⟨c, t, hct, hcd⟩ := natDigs_head i.natAbs
      obtain ⟨_, _, _, _, _, _, _, hbr, hbc, _, hls⟩ := digit_head_facts hcd
      refine ⟨c, t, ?_, hls, hbr, hbc⟩
      simp [jdump, intChars, hi, hct]

theorem jdump_len_pos (v : Json) : 1 ≤ (jdump v).length := by
  obtain ⟨c, t, h, _⟩ := jdump_head v
  simp [h]

theorem dropSpaces_jdump (v : Json) (x : List Char) :
    dropSpaces (jdump v ++ x) = jdump v ++ x := by
  obtain ⟨c, t, h, hws, _, _⟩ := jdump_head v
  rw [h, List.cons_append, dropSpaces_cons hws]

theorem jparse_space {c : Char} (h : isSpaceChar c = true) :
    ∀ (fuel : Nat) (w : List Char), jparse fuel (c :: w) = jparse fuel w
  | 0, w => rfl
  | fuel + 1, w => by
    rw [jparse, jparse, show dropSpaces (c :: w) = dropSpaces w from by simp [dropSpaces, h]]

theorem jparseItems_space {c : Char} (h : isSpaceChar c = true) :
    ∀ (fuel : Nat) (w : List Char), jparseItems fuel (c :: w) = jparseItems fuel w
  | 0, w => rfl
  | fuel + 1, w => by
    rw [jparseItems, jparseItems, jparse_space h]

theorem jparseFields_space {c : Char} (h : isSpaceChar c = true) :
    ∀ (fuel : Nat) (w : List Char), jparseFields fuel (c :: w) = jparseFields fuel w
  | 0, w => rfl
  | fuel + 1, w => by
    rw [jparseFields, jparseFields,
      show dropSpaces (c :: w) = dropSpaces w from by simp [dropSpaces, h]]

mutual
theorem jparse_jdump : ∀ (v : Json) (fuel : Nat) (rest : List Char),
    (jdump v).length < fuel → digitFence rest = true →
    jparse fuel (jdump v ++ rest) = some (v, rest)
  | .null, fuel, rest, hf, _ => by
    cases fuel with
    | zero => exact absurd hf (Nat.not_lt_zero _)
    | succ f =>
      rw [show jdump .null ++ rest = 'n' :: 'u' :: 'l' :: 'l' :: rest from rfl, jparse,
        dropSpaces_cons (by decide)]
      simp
  | .bool true, fuel, rest, hf, _ => by
    cases fuel with
    | zero => exact absurd hf (Nat.not_lt_zero _)
    | succ f =>
      rw [show jdump (.bool true) ++ rest = 't' :: 'r' :: 'u' :: 'e' :: rest from rfl, jparse,
        dropSpaces_cons (by decide)]
      simp
  | .bool false, fuel, rest, hf, _ => by
    cases fuel with
    | zero => exact absurd hf (Nat.not_lt_zero _)
    | succ f =>
      rw [show jdump (.bool false) ++ rest = 'f' :: 'a' :: 'l' :: 's' :: 'e' :: rest from rfl,
        jparse, dropSpaces_cons (by decide)]
      simp
  | .str s, fuel, rest, hf, _ => by
    cases fuel with
    | zero => exact absurd hf (Nat.not_lt_zero _)
    | succ f =>
      rw [show jdump (.str s) ++ rest = '"' :: (escBody s.data ++ '"' :: rest) from by
          simp [jdump], jparse, dropSpaces_cons (by decide)]
      simp [strBody_escBody, strMk_data]
  | .num i, fuel, rest, hf, hfence => by
    cases fuel with
    | zero => exact absurd hf (Nat.not_lt_zero _)
    | succ f =>
      obtain ⟨c, t, hct, hcd⟩ := natDigs_head i.natAbs
      have hspan : digitSpan (c :: (t ++ rest)) = (c :: t, rest) := by
        have := digitSpan_run (natDigs i.natAbs []) (natDigs_digits _) rest hfence
        rw [hct] at this
        rw [← List.cons_append]
        exact this
      have hdv : digitsVal (c :: t) = i.natAbs := by
        rw [← hct, digitsVal_natDigs]
      by_cases hi : i < 0
      · rw [show jdump (.num i) ++ rest = '-' :: (c :: (t ++ rest)) from by
            simp [jdump, intChars, hi, hct], jparse, dropSpaces_cons (by decide)]
        simp [hspan, hdv]
        rw [abs_of_neg hi]
        ring
      · obtain ⟨hn, ht, hfa, hq, hm, _, _, _, _, _, hls⟩ := digit_head_facts hcd
        rw [show jdump (.num i) ++ rest = c :: (t ++ rest) from by
            simp [jdump, intChars, hi, hct], jparse, dropSpaces_cons hls]
        simp [hn, ht, hfa, hq, hm, hcd, hspan, hdv]
        omega
  | .arr [], fuel, rest, hf, _ => by
    cases fuel with
    | zero => exact absurd hf (Nat.not_lt_zero _)
    | succ f =>
      rw [show jdump (.arr []) ++ rest = '[' :: ']' :: rest from rfl, jparse,
        dropSpaces_cons (by decide)]
      simp [dropSpaces_cons (show isSpaceChar ']' = false from by decide),
        show isDigitChar '[' = false from by decide]
  | .arr (x :: xs), fuel, rest, hf, _ => by
    cases fuel with
    | zero => exact absurd hf (Nat.not_lt_zero _)
    | succ f =>
      rw [show jdump (.arr (x :: xs)) ++ rest
          = '[' :: ((jdump x ++ jdumpTail xs) ++ ']' :: rest) from by
            simp [jdump], jparse, dropSpaces_cons (by decide)]
      obtain ⟨c, t, hct, hws, hbr, _⟩ := jdump_head x
      have hexp : (jdump x ++ jdumpTail xs) ++ ']' :: rest
          = c :: (t ++ (jdumpTail xs ++ ']' :: rest)) := by
        rw [hct]
        simp
      rw [hexp]
      have hlen : (jdump x ++ jdumpTail xs).length + 1 < f := by
        have := hf
        simp only [show jdump (.arr (x :: xs)) = '[' :: (jdump x ++ jdumpTail xs) ++ [']'] from
          rfl, List.length_cons, List.length_append, List.length_singleton] at this
        simp only [List.length_append]
        omega
      have hitems : jparseItems f (c :: (t ++ (jdumpTail xs ++ ']' :: rest)))
          = some (x :: xs, rest) := by
        rw [← hexp]
        exact jparseItems_jdump x xs f rest hlen
      simp [dropSpaces_cons hws, hbr, hitems, show isDigitChar '[' = false from by decide]
  | .obj [], fuel, rest, hf, _ => by
    cases fuel with
    | zero => exact absurd hf (Nat.not_lt_zero _)
    | succ f =>
      rw [show jdump (.obj []) ++ rest = '{' :: '}' :: rest from rfl, jparse,
        dropSpaces_cons (by decide)]
      simp [dropSpaces_cons (show isSpaceChar '}' = false from by decide),
        show isDigitChar '{' = false from by decide]
  | .obj ((k, v) :: fs), fuel, rest, hf, _ => by
    cases fuel with
    | zero => exact absurd hf (Nat.not_lt_zero _)
    | succ f =>
      rw [show jdump (.obj ((k, v) :: fs)) ++ rest
          = '{' :: ((jdumpField (k, v) ++ jdumpFieldTail fs) ++ '}' :: rest) from by
            simp [jdump], jparse, dropSpaces_cons (by decide)]
      have hexp : (jdumpField (k, v) ++ jdumpFieldTail fs) ++ '}' :: rest
          = '"' :: (escBody k.data ++ '"' :: ':' :: ' ' ::
              (jdump v ++ (jdumpFieldTail fs ++ '}' :: rest))) := by
        rw [jdumpField]
        simp
      rw [hexp]
      have hlen : (jdumpField (k, v) ++ jdumpFieldTail fs).length + 1 < f := by
        have := hf
        simp only [show jdump (.obj ((k, v) :: fs))
            = '{' :: (jdumpField (k, v) ++ jdumpFieldTail fs) ++ ['}'] from rfl,
          List.length_cons, List.length_append, List.length_singleton] at this
        simp only [List.length_append]
        omega
      have hfields : jparseFields f ('"' :: (escBody k.data ++ '"' :: ':' :: ' ' ::
          (jdump v ++ (jdumpFieldTail fs ++ '}' :: rest)))) = some ((k, v) :: fs, rest) := by
        rw [← hexp]
        exact jparseFields_jdump (k, v) fs f rest hlen
      simp [dropSpaces_cons (show isSpaceChar '"' = false from by decide), hfields,
        show isDigitChar '{' = false from by decide]
termination_by v _ _ _ _ => 2 * sizeOf v

theorem jparseItems_jdump : ∀ (x : Json) (xs : List Json) (fuel : Nat) (rest : List Char),
    (jdump x ++ jdumpTail xs).length + 1 < fuel →
    jparseItems fuel ((jdump x ++ jdumpTail xs) ++ ']' :: rest) = some (x :: xs, rest)
  | x, [], fuel, rest, hf => by
    cases fuel with
    | zero => exact absurd hf (Nat.not_lt_zero _)
    | succ f =>
      rw [jparseItems, List.append_assoc]
      have hlenx : (jdump x).length < f := by
        simp only [List.length_append] at hf
        omega
      rw [jparse_jdump x f _ hlenx (by simp [jdumpTail, digitFence, isDigitChar])]
      simp [jdumpTail, dropSpaces_cons (show isSpaceChar ']' = false from by decide)]
  | x, y :: ys, fuel, rest, hf => by
    cases fuel with
    | zero => exact absurd hf (Nat.not_lt_zero _)
    | succ f =>
      rw [jparseItems, List.append_assoc]
      have hlenx : (jdump x).length < f := by
        simp only [List.length_append] at hf
        omega
      rw [jparse_jdump x f _ hlenx (by simp [jdumpTail, digitFence, isDigitChar])]
      have hleny : (jdump y ++ jdumpTail ys).length + 1 < f := by
        have hx := jdump_len_pos x
        simp only [jdumpTail, List.length_append, List.length_cons] at hf
        simp only [List.length_append]
        omega
      have htail : jparseItems f (jdump y ++ (jdumpTail ys ++ ']' :: rest))
          = some (y :: ys, rest) := by
        rw [← List.append_assoc]
        exact jparseItems_jdump y ys f rest hleny
      simp [jdumpTail, dropSpaces_cons (show isSpaceChar ',' = false from by decide),
        jparseItems_space (show isSpaceChar ' ' = true from by decide), htail]
termination_by x xs _ _ _ => 2 * (sizeOf x + sizeOf xs) + 1

theorem jparseFields_jdump : ∀ (fd : String × Json) (fs : List (String × Json))
    (fuel : Nat) (rest : List Char),
    (jdumpField fd ++ jdumpFieldTail fs).length + 1 < fuel →
    jparseFields fuel ((jdumpField fd ++ jdumpFieldTail fs) ++ '}' :: rest)
      = some (fd :: fs, rest)
  | (k, v), [], fuel, rest, hf => by
    cases fuel with
    | zero => exact absurd hf (Nat.not_lt_zero _)
    | succ f =>
      rw [jparseFields]
      have hexp : (jdumpField (k, v) ++ jdumpFieldTail []) ++ '}' :: rest
          = '"' :: (escBody k.data ++ '"' :: (':' :: ' ' :: (jdump v ++ '}' :: rest))) := by
        rw [jdumpField]
        simp [jdumpFieldTail]
      rw [hexp, dropSpaces_cons (by decide)]
      have hlenv : (jdump v).length < f := by
        simp only [jdumpField, List.length_append, List.length_cons] at hf
        omega
      have hval := jparse_jdump v f ('}' :: rest) hlenv (by simp [digitFence, isDigitChar])
      have hskip : jparse f (' ' :: (jdump v ++ '}' :: rest)) = some (v, '}' :: rest) := by
        rw [jparse_space (by decide), hval]
      simp [strBody_escBody, hskip,
        dropSpaces_cons (show isSpaceChar ':' = false from by decide),
        dropSpaces_cons (show isSpaceChar '}' = false from by decide), strMk_data]
  | (k, v), g :: gs, fuel, rest, hf => by
    cases fuel with
    | zero => exact absurd hf (Nat.not_lt_zero _)
    | succ f =>
      rw [jparseFields]
      have hexp : (jdumpField (k, v) ++ jdumpFieldTail (g :: gs)) ++ '}' :: rest
          = '"' :: (escBody k.data ++ '"' :: (':' :: ' ' ::
              (jdump v ++ (',' :: ' ' :: (jdumpField g ++
                (jdumpFieldTail gs ++ '}' :: rest)))))) := by
        rw [jdumpField]
        simp [jdumpFieldTail]
      rw [hexp, dropSpaces_cons (by decide)]
      have hlenv : (jdump v).length < f := by
        simp only [jdumpField, List.length_append, List.length_cons] at hf
        omega
      have hval := jparse_jdump v f
        (',' :: ' ' :: (jdumpField g ++ (jdumpFieldTail gs ++ '}' :: rest))) hlenv
        (by simp [digitFence, isDigitChar])
      have hskip : jparse f (' ' :: (jdump v ++ (',' :: ' ' ::
          (jdumpField g ++ (jdumpFieldTail gs ++ '}' :: rest)))))
          = some (v, ',' :: ' ' :: (jdumpField g ++ (jdumpFieldTail gs ++ '}' :: rest))) := by
        rw [jparse_space (by decide), hval]
      have hleng : (jdumpField g ++ jdumpFieldTail gs).length + 1 < f := by
        have hk := jdump_len_pos v
        simp only [jdumpField, jdumpFieldTail, List.length_append, List.length_cons] at hf
        simp only [List.length_append]
        omega
      have htail : jparseFields f (jdumpField g ++ (jdumpFieldTail gs ++ '}' :: rest))
          = some (g :: gs, rest) := by
        rw [← List.append_assoc]
        exact jparseFields_jdump g gs f rest hleng
      simp [strBody_escBody, hskip,
        dropSpaces_cons (show isSpaceChar ':' = false from by decide),
        dropSpaces_cons (show isSpaceChar ',' = false from by decide),
        jparseFields_space (show isSpaceChar ' ' = true from by decide), htail, strMk_data]
termination_by fd fs _ _ _ => 2 * (sizeOf fd + sizeOf fs) + 1
end

/-- The strict parser inverts the canonical serializer on every JSON value. -/
theorem loadsJson_jdump (v : Json) : loadsJson (jdump v) = some v := by
  have h := jparse_jdump v ((jdump v).length + 1) [] (by omega) rfl
  rw [List.append_nil] at h
  rw [loadsJson, h]
  simp [dropSpaces]

/-! ## Client tool-call extraction (`parse_tool_call` in `src/client/main.py`)

The first regex is `<tool_call>\s*({[\s\S]+?})\s*</tool_call>`: leftmost
start, then the lazy group ends at the first `}` that is followed (after
whitespace) by the closing tag. The fallback regex is
`({\s*"name"\s*:\s*"[^"]+".*?\})` with DOTALL. A candidate block that fails
`json.loads` yields no call (and the delimited branch does not fall through
to the fallback). -/

/-- Literal prefix test. -/
def litMatch : List Char → List Char → Bool
  | [], _ => true
  | _ :: _, [] => false
  | p :: ps, c :: cs => p = c && litMatch ps cs

/-- Case-insensitive literal prefix test (Python `re.IGNORECASE`). -/
def litMatchCI : List Char → List Char → Bool
  | [], _ => true
  | _ :: _, [] => false
  | p :: ps, c :: cs => p.toLower = c.toLower && litMatchCI ps cs

/-- Substring test: some suffix starts with the pattern. -/
def containsSub (pat : List Char) : List Char → Bool
  | [] => litMatch pat []
  | s@(_ :: t) => litMatch pat s || containsSub pat t

/-- Earliest index at which the pattern occurs, scanning left to right. -/
def findSub (pat : List Char) : List Char → Option Nat
  | [] => if litMatch pat [] then some 0 else none
  | s@(_ :: t) =>
    if litMatch pat s then some 0
    else (findSub pat t).map (· + 1)

/-- Earliest index of a case-insensitive occurrence. -/
def findSubCI (pat : List Char) : List Char → Option Nat
  | [] => if litMatchCI pat [] then some 0 else none
  | s@(_ :: t) =>
    if litMatchCI pat s then some 0
    else (findSubCI pat t).map (· + 1)

/-- The opening delimiter of the wire format. -/
def openTag : List Char := "<tool_call>".data

/-- The closing delimiter of the wire format. -/
def closeTag : List Char := "</tool_call>".data

/-- Does `\s*</tool_call>` match here? This is the lazy group's stop test. -/
def closingAt (cs : List Char) : Bool := litMatch closeTag (dropSpaces cs)

/-- Scan for the lazy group's end: the first `}` preceded by at least one
group character and followed by `\s*</tool_call>`. `acc` holds the group
characters consumed so far, reversed, starting from the opening `{`. -/
def blockScan : List Char → List Char → Option (List Char)
  | _, [] => none
  | acc, c :: cs =>
    if c = '}' && 2 ≤ acc.length && closingAt cs then some ((c :: acc).reverse)
    else blockScan (c :: acc) cs

/-- Try the delimited-block regex anchored at this position. -/
def delimMatchAt (s : List Char) : Option (List Char) :=
  if litMatch openTag s then
    match dropSpaces (s.drop openTag.length) with
    | '{' :: body => blockScan ['{'] body
    | _ => none
  else none

/-- Leftmost delimited block in the text (the regex search). -/
def findDelimBlock : List Char → Option (List Char)
  | [] => none
  | s@(_ :: t) =>
    match delimMatchAt s with
    | some g => some g
    | none => findDelimBlock t

/-- Try the bare-object fallback regex anchored at this position, returning
the matched block. -/
def bareMatchAt (s : List Char) : Option (List Char) :=
  match s with
  | '{' :: r0 =>
    let r1 := dropSpaces r0
    if litMatch "\"name\"".data r1 then
      let r2 := dropSpaces (r1.drop 6)
      match r2 with
      | ':' :: r3 =>
        match dropSpaces r3 with
        | '"' :: r5 =>
          let content := r5.takeWhile (fun c => !(c = '"'))
          if content.length = 0 then none
          else
            match r5.drop content.length with
            | '"' :: r6 =>
              match List.findIdx? (fun c => c = '}') r6 with
              | some k => some (s.take (s.length - (r6.length - (k + 1))))
              | none => none
            | _ => none
        | _ => none
      | _ => none
    else none
  | _ => none

/-- Leftmost bare `{"name": ...}` block in the text. -/
def findBareBlock : List Char → Option (List Char)
  | [] => none
  | s@(_ :: t) =>
    match bareMatchAt s with
    | some g => some g
    | none => findBareBlock t

/-- `parse_tool_call(llm_response)`: find a delimited block and parse it
(parse failure returns no call without trying the fallback); otherwise find
a bare `{"name": ...}` block and parse that; otherwise no call. -/
def parse_tool_call (s : String) : Option Json :=
  match findDelimBlock s.data with
  | some g => loadsJson g
  | none =>
    match findBareBlock s.data with
    | some g => loadsJson g
    | none => none

/-- Modelled from the spec: the tool-call wire encoding (§6: "a delimited
block containing `{"name": "<tool>", "input": {...}}`"), the encoder half of
the round-trip property. -/
def toolCallJson (name : String) (input : List (String × Json)) : Json :=
  .obj [("name", .str name), ("input", .obj input)]

/-- Modelled from the spec: a ToolCall rendered to the delimited wire block. -/
def encodeToolCall (name : String) (input : List (String × Json)) : String :=
  String.mk (openTag ++ jdump (toolCallJson name input) ++ closeTag)

/-! ## Extraction lemmas -/

theorem litMatch_iff (p : List Char) : ∀ s, litMatch p s = true ↔ ∃ t, s = p ++ t := by
  induction p with
  | nil => intro s; simp [litMatch]
  | cons x xs ih =>
    intro s
    cases s with
    | nil => simp [litMatch]
    | cons c cs =>
      simp only [litMatch, Bool.and_eq_true, decide_eq_true_eq, ih cs, List.cons_append,
        List.cons.injEq]
      constructor
      · rintro ⟨rfl, t, rfl⟩
        exact ⟨t, rfl, rfl⟩
      · rintro ⟨t, rfl, rfl⟩
        exact ⟨rfl, t, rfl⟩

theorem litMatch_self (p x : List Char) : litMatch p (p ++ x) = true :=
  (litMatch_iff p _).mpr ⟨x, rfl⟩

theorem litMatch_extend {p u : List Char} (h : litMatch p u = true) (w : List Char) :
    litMatch p (u ++ w) = true := by
  obtain ⟨t, rfl⟩ := (litMatch_iff p u).mp h
  rw [List.append_assoc]
  exact litMatch_self p _

theorem containsSub_iff (pat : List Char) :
    ∀ s, containsSub pat s = true ↔ ∃ i, litMatch pat (s.drop i) = true := by
  intro s
  induction s with
  | nil =>
    simp only [containsSub, List.drop_nil]
    exact ⟨fun h => ⟨0, h⟩, fun ⟨_, h⟩ => h⟩
  | cons c t ih =>
    simp only [containsSub, Bool.or_eq_true, ih]
    constructor
    · rintro (h | ⟨i, h⟩)
      · exact ⟨0, h⟩
      · exact ⟨i + 1, h⟩
    · rintro ⟨i, h⟩
      cases i with
      | zero => exact Or.inl h
      | succ j => exact Or.inr ⟨j, h⟩

theorem dropSpaces_spec (l : List Char) :
    ∃ k, k ≤ l.length ∧ dropSpaces l = l.drop k ∧
      ∀ j, j < k → ∃ cj, l.get? j = some cj ∧ isSpaceChar cj = true := by
  induction l with
  | nil => exact ⟨0, by simp, rfl, by omega⟩
  | cons c cs ih =>
    by_cases hc : isSpaceChar c = true
    · obtain ⟨k, hk, heq, hsp⟩ := ih
      refine ⟨k + 1, by simp; omega, ?_, ?_⟩
      · simp [dropSpaces, hc, heq]
      · intro j hj
        cases j with
        | zero => exact ⟨c, rfl, hc⟩
        | succ j2 => exact hsp j2 (by omega)
    · exact ⟨0, by simp, by simp [dropSpaces, hc], by omega⟩

theorem closeTag_no_brace : ∀ j, j < 12 → closeTag.get? j ≠ some '}' := by decide

theorem cs_brace_at (b : List Char) (tail : List Char) :
    (b ++ '}' :: tail).get? b.length = some '}' := by
  rw [List.get?_eq_getElem?, List.getElem?_append_right (by omega)]
  simp

/-- No `}` inside the serialized block can satisfy the lazy group's stop test
when the serialization contains no closing tag: the early closing position
would exhibit `</tool_call>` strictly before the real delimiter. -/
theorem no_early_close {d : List Char} (a b : List Char)
    (hd : d = '{' :: (a ++ '}' :: b) ++ ['}'])
    (hno : containsSub closeTag d = false) :
    closingAt (b ++ '}' :: closeTag) = false := by
  by_contra hcl
  rw [Bool.not_eq_false, closingAt] at hcl
  set cs := b ++ '}' :: closeTag with hcs
  obtain ⟨k, hk, heq, hsp⟩ := dropSpaces_spec cs
  rw [heq] at hcl
  obtain ⟨t, hsplit⟩ := (litMatch_iff closeTag _).mp hcl
  have hbk : k ≤ b.length := by
    by_contra hgt
    obtain ⟨cj, hcj, hcjs⟩ := hsp b.length (by omega)
    rw [cs_brace_at b closeTag] at hcj
    cases hcj
    exact absurd hcjs (by decide)
  by_cases hroom : k + 12 ≤ b.length
  · -- the occurrence fits inside `b`, hence inside `d`: contradiction
    have hdropb : cs.drop k = b.drop k ++ '}' :: closeTag := by
      rw [hcs, List.drop_append_eq_append_drop, show k - b.length = 0 by omega]
      simp
    have hlenbk : 12 ≤ (b.drop k).length := by
      simp only [List.length_drop]
      omega
    have htake : (b.drop k).take 12 = closeTag := by
      have h1 : (cs.drop k).take 12 = closeTag := by
        rw [hsplit, List.take_append_of_le_length (by decide : 12 ≤ closeTag.length)]
        decide
      rw [hdropb, List.take_append_of_le_length hlenbk] at h1
      exact h1
    have hlitb : litMatch closeTag (b.drop k) = true := by
      rw [litMatch_iff]
      exact ⟨(b.drop k).drop 12, by rw [← htake]; simp⟩
    have hind : containsSub closeTag d = true := by
      rw [containsSub_iff]
      refine ⟨a.length + 2 + k, ?_⟩
      have hdform : d = ('{' :: a ++ ['}']) ++ (b ++ ['}']) := by
        rw [hd]
        simp
      have hdd : d.drop (a.length + 2 + k) = b.drop k ++ ['}'] := by
        rw [hdform, List.drop_append_eq_append_drop,
          show a.length + 2 + k - ('{' :: a ++ ['}']).length = k by simp,
          List.drop_eq_nil_of_le (by simp), List.drop_append_eq_append_drop,
          show k - b.length = 0 by omega]
        simp
      rw [hdd]
      exact litMatch_extend hlitb _
    rw [hno] at hind
    cases hind
  · -- the occurrence would cover the `}` at index `b.length`: impossible
    have hj : b.length - k < 12 := by omega
    have h1 : (cs.drop k).get? (b.length - k) = closeTag.get? (b.length - k) := by
      rw [hsplit, List.get?_eq_getElem?, List.get?_eq_getElem?,
        List.getElem?_append_left (by simpa [closeTag] using hj)]
    have h2 : (cs.drop k).get? (b.length - k) = some '}' := by
      rw [List.get?_eq_getElem?, List.getElem?_drop, show k + (b.length - k) = b.length by omega,
        ← List.get?_eq_getElem?]
      exact cs_brace_at b closeTag
    exact closeTag_no_brace _ hj (h1 ▸ h2)

theorem closingAt_closeTag : closingAt closeTag = true := by decide

/-- With no early stop available, the lazy scan runs to the block's final
`}` and returns the whole group. -/
theorem blockScan_run (mid : List Char)
    (hstop : ∀ a b, mid = a ++ '}' :: b → closingAt (b ++ '}' :: closeTag) = false) :
    ∀ acc : List Char, 2 ≤ acc.length + mid.length →
      blockScan acc (mid ++ '}' :: closeTag) = some (acc.reverse ++ mid ++ ['}']) := by
  induction mid with
  | nil =>
    intro acc hacc
    simp only [List.nil_append]
    rw [blockScan]
    simp only [List.length_nil, Nat.add_zero] at hacc
    simp [closingAt_closeTag, hacc, decide_eq_true_eq]
  | cons m mid2 ih =>
    intro acc hacc
    rw [List.cons_append, blockScan]
    by_cases hm : m = '}'
    · subst hm
      rw [if_neg (by simp [hstop [] mid2 rfl])]
      rw [ih (fun a b hab => hstop ('}' :: a) b (by rw [hab]; rfl)) ('}' :: acc)
        (by simp at hacc ⊢; omega)]
      simp
    · rw [if_neg (by simp [hm])]
      rw [ih (fun a b hab => hstop (m :: a) b (by rw [hab]; rfl)) (m :: acc)
        (by simp at hacc ⊢; omega)]
      simp

/-- On a wire block whose serialized payload contains no closing tag, the
delimited-block search recovers exactly the payload. -/
theorem findDelimBlock_encode (fd : String × Json) (fs : List (String × Json))
    (hno : containsSub closeTag (jdump (.obj (fd :: fs))) = false) :
    findDelimBlock (openTag ++ jdump (.obj (fd :: fs)) ++ closeTag)
      = some (jdump (.obj (fd :: fs))) := by
  obtain ⟨k, v⟩ := fd
  have hdshape : jdump (.obj ((k, v) :: fs))
      = '{' :: (jdumpField (k, v) ++ jdumpFieldTail fs) ++ ['}'] := rfl
  obtain ⟨m, ms, hmid⟩ : ∃ m ms, jdumpField (k, v) ++ jdumpFieldTail fs = m :: ms :=
    ⟨'"', _, rfl⟩
  have hopen : openTag ++ jdump (.obj ((k, v) :: fs)) ++ closeTag
      = '<' :: ("tool_call>".data ++ (jdump (.obj ((k, v) :: fs)) ++ closeTag)) := by
    simp [openTag]
  rw [hopen, findDelimBlock]
  have hmatch : delimMatchAt ('<' :: ("tool_call>".data ++
      (jdump (.obj ((k, v) :: fs)) ++ closeTag)))
      = some (jdump (.obj ((k, v) :: fs))) := by
    rw [delimMatchAt, if_pos (by
      rw [show ('<' :: ("tool_call>".data ++ (jdump (.obj ((k, v) :: fs)) ++ closeTag)))
          = openTag ++ (jdump (.obj ((k, v) :: fs)) ++ closeTag) from by simp [openTag]]
      exact litMatch_self openTag _)]
    rw [show ('<' :: ("tool_call>".data ++ (jdump (.obj ((k, v) :: fs)) ++ closeTag))).drop
        openTag.length = jdump (.obj ((k, v) :: fs)) ++ closeTag from by
      rw [show ('<' :: ("tool_call>".data ++ (jdump (.obj ((k, v) :: fs)) ++ closeTag)))
          = openTag ++ (jdump (.obj ((k, v) :: fs)) ++ closeTag) from by simp [openTag]]
      exact List.drop_left _ _]
    have harg : jdump (.obj ((k, v) :: fs)) ++ closeTag
        = '{' :: ((m :: ms) ++ '}' :: closeTag) := by
      rw [hdshape, hmid]
      simp
    rw [harg, dropSpaces_cons (by decide)]
    have hscan := blockScan_run (m :: ms) (fun a b hab => by
      refine no_early_close a b ?_ hno
      rw [hdshape, hmid, hab]) ['{'] (by simp; omega)
    simp [hdshape, hmid]
    simpa using hscan
  rw [hmatch]

/-- Claim C7 (amended): for every ToolCall {name, input} whose serialized
JSON contains no occurrence of the closing delimiter `</tool_call>`,
encoding it as the delimited wire block and running the result through the
tool-call extractor yields exactly the original {name, input} structure.
(The unrestricted claim fails: a string value containing `</tool_call>`
right after a `}` makes the lazy group stop early, the truncated block
fails to parse, and the extractor reports no call — see the counterexample.) -/
theorem C7_tool_call_round_trip (name : String) (input : List (String × Json))
    (hno : containsSub closeTag (jdump (toolCallJson name input)) = false) :
    parse_tool_call (encodeToolCall name input) = some (toolCallJson name input) := by
  rw [parse_tool_call,
    show (encodeToolCall name input).data
      = openTag ++ jdump (toolCallJson name input) ++ closeTag from rfl,
    show toolCallJson name input
      = .obj [("name", .str name), ("input", .obj input)] from rfl] at *
  rw [findDelimBlock_encode ("name", .str name) [("input", .obj input)] hno]
  simp [loadsJson_jdump]

/-- Claim C7 counterexample: the round trip fails as universally stated. A
string value `}</tool_call>` inside the argument map defeats the lazy
delimited-block regex: the group ends at the `}` inside the string, the
truncated text is not valid JSON, and the extractor returns no call. -/
theorem C7_counterexample :
    parse_tool_call (encodeToolCall "a" [("x", .str "\x7d</tool_call>")])
      ≠ some (toolCallJson "a" [("x", .str "\x7d</tool_call>")]) := by decide

theorem C7_witness :
    containsSub closeTag (jdump (toolCallJson "obter_range_anos" [])) = false ∧
    parse_tool_call (encodeToolCall "obter_range_anos" [])
      = some (toolCallJson "obter_range_anos" []) :=
  ⟨by decide, C7_tool_call_round_trip "obter_range_anos" [] (by decide)⟩

/-- Claim C8 (confirmed): the extractor is total and never fabricates a
call. Every result is either "no call" or the strict parse of a candidate
block it located (delimited first, bare fallback second); and whenever a
located candidate fails to parse as structured data the result is "no
call" — in the delimited case without even consulting the fallback. -/
theorem C8_extractor_no_garbage :
    (∀ s : String, parse_tool_call s = none ∨
      ∃ b, (findDelimBlock s.data = some b ∨
        (findDelimBlock s.data = none ∧ findBareBlock s.data = some b)) ∧
        parse_tool_call s = loadsJson b) ∧
    (∀ (s : String) (b : List Char), findDelimBlock s.data = some b →
      loadsJson b = none → parse_tool_call s = none) ∧
    (∀ (s : String) (b : List Char), findDelimBlock s.data = none →
      findBareBlock s.data = some b → loadsJson b = none → parse_tool_call s = none) := by
  refine ⟨?_, ?_, ?_⟩
  · intro s
    rw [parse_tool_call]
    cases hd : findDelimBlock s.data with
    | some b => exact Or.inr ⟨b, Or.inl rfl, rfl⟩
    | none =>
      cases hb : findBareBlock s.data with
      | some b => exact Or.inr ⟨b, Or.inr ⟨rfl, rfl⟩, rfl⟩
      | none => exact Or.inl rfl
  · intro s b hd hl
    rw [parse_tool_call, hd]
    simp [hl]
  · intro s b hd hb hl
    rw [parse_tool_call, hd, hb]
    simp [hl]

theorem C8_witness :
    findDelimBlock ("<tool_call>\x7bbad\x7d</tool_call>" : String).data
      = some ("\x7bbad\x7d" : String).data ∧
    loadsJson ("\x7bbad\x7d" : String).data = none ∧
    parse_tool_call "<tool_call>\x7bbad\x7d</tool_call>" = none :=
  ⟨by decide, by decide,
    C8_extractor_no_garbage.2.1 "<tool_call>\x7bbad\x7d</tool_call>"
      ("\x7bbad\x7d" : String).data (by decide) (by decide)⟩

/-! ## Response stripping (`extract_final_response`, `clean_llm_response`)

`re.sub(pattern, "", text)` removes every non-overlapping match scanning
left to right; each matcher below returns the length an anchored match
would consume at the current position. -/

/-- Remove every anchored match, scanning left to right and resuming after
each removed span (the semantics of `re.sub` with an empty replacement). -/
def subAll (m : List Char → Option Nat) : Nat → List Char → List Char
  | 0, s => s
  | _ + 1, [] => []
  | fuel + 1, c :: cs =>
    match m (c :: cs) with
    | some n => if n = 0 then c :: subAll m fuel cs else subAll m fuel ((c :: cs).drop n)
    | none => c :: subAll m fuel cs

/-- One full substitution pass over the text. -/
def reSub (m : List Char → Option Nat) (s : List Char) : List Char :=
  subAll m (s.length + 1) s

/-- Anchored match of `<tool_call>[\s\S]*?</tool_call>` (case-insensitive):
the lazy body ends at the earliest closing tag. -/
def tcBlockLen (s : List Char) : Option Nat :=
  if litMatchCI openTag s then
    match findSubCI closeTag (s.drop openTag.length) with
    | some k => some (openTag.length + k + closeTag.length)
    | none => none
  else none

/-- Anchored match of the bare `{"name": ...}` regex, as a length. -/
def bareLen (s : List Char) : Option Nat := (bareMatchAt s).map List.length

/-- The code-fence delimiter. -/
def fenceTag : List Char := "```".data

/-- Anchored match of a lazily closed code fence. -/
def fenceLen (s : List Char) : Option Nat :=
  if litMatch fenceTag s then
    match findSub fenceTag (s.drop 3) with
    | some k => some (3 + k + 3)
    | none => none
  else none

/-- Scan a tag body for the closing `>`; `.` does not cross a newline. -/
def tagScan : Nat → List Char → Option Nat
  | _, [] => none
  | n, c :: cs =>
    if c = '>' then some n
    else if c = '\n' then none
    else tagScan (n + 1) cs

/-- Anchored match of `<.*?>`. -/
def tagLen : List Char → Option Nat
  | '<' :: r => (tagScan 0 r).map (fun k => k + 2)
  | _ => none

/-- The four progress words removed by `clean_llm_response`. -/
def progressWords : List (List Char) :=
  ["executando".data, "buscando".data, "consultando".data, "verificando".data]

/-- Anchored match of
`(?i)(executando|buscando|consultando|verificando)[^\n\r]*[\n\r]?`. -/
def progressLen (s : List Char) : Option Nat :=
  match progressWords.find? (fun w => litMatchCI w s) with
  | some w =>
    let rest := s.drop w.length
    let k := (rest.takeWhile (fun c => !(c = '\n') && !(c = '\r'))).length
    some (w.length + k + (match rest.drop k with | [] => 0 | _ :: _ => 1))
  | none => none

/-- Python `str.strip()` on characters. -/
def pyStripChars (cs : List Char) : List Char :=
  (dropSpaces ((dropSpaces cs).reverse)).reverse

/-- `extract_final_response(llm_response)`: remove `<tool_call>...</tool_call>`
blocks, then bare `{"name": ...}` blocks, then trim. -/
def extract_final_response (s : String) : String :=
  String.mk (pyStripChars (reSub bareLen (reSub tcBlockLen s.data)))

/-- `clean_llm_response(text)`: remove code fences, then `<...>` tags, then
progress-word lines, then trim. -/
def clean_llm_response (s : String) : String :=
  String.mk (pyStripChars (reSub progressLen (reSub tagLen (reSub fenceLen s.data))))

/-- The strip pipeline as the agent loop applies it to each model response:
`clean_llm_response(extract_final_response(text))`. -/
def stripResponse (s : String) : String := clean_llm_response (extract_final_response s)

theorem subAll_of_no_match (m : List Char → Option Nat) :
    ∀ (fuel : Nat) (s : List Char), (∀ i, m (s.drop i) = none) → subAll m fuel s = s := by
  intro fuel
  induction fuel with
  | zero => intro s _; rfl
  | succ f ih =>
    intro s hm
    cases s with
    | nil => rfl
    | cons c cs =>
      rw [subAll, show m (c :: cs) = none from by simpa using hm 0,
        ih cs (fun i => by simpa using hm (i + 1))]

theorem reSub_of_no_match (m : List Char → Option Nat) (s : List Char)
    (hm : ∀ i, m (s.drop i) = none) : reSub m s = s :=
  subAll_of_no_match m _ s hm

/-- Reduce a "matcher never fires" obligation to a bounded, decidable check. -/
theorem matcher_none_all {α : Type} (m : List Char → Option α) (s : List Char)
    (hb : ∀ i, i < s.length → m (s.drop i) = none) (he : m [] = none) :
    ∀ i, m (s.drop i) = none := by
  intro i
  by_cases h : i < s.length
  · exact hb i h
  · rw [List.drop_eq_nil_of_le (by omega)]
    exact he

/-- Claim C9 (amended): the strip pipeline is not idempotent — removing a
code fence or a tool-call block can splice the surrounding text into a new
bare `{"name": ...}` block or a new `<tool_call>` block that only a second
pass removes (see the counterexample). What does hold is the prose
preservation half, stated against the removal passes themselves: on input
in which neither the tool-call-block regex nor the bare-block regex matches
anywhere, `extract_final_response` returns the original text trimmed of
surrounding whitespace. -/
theorem C9_strip_preserves_prose (s : String)
    (h1 : ∀ i, tcBlockLen (s.data.drop i) = none)
    (h2 : ∀ i, bareLen (s.data.drop i) = none) :
    extract_final_response s = String.mk (pyStripChars s.data) := by
  rw [extract_final_response, reSub_of_no_match tcBlockLen s.data h1,
    reSub_of_no_match bareLen s.data h2]

/-- Claim C9 counterexample: stripping twice differs from stripping once,
both for the full pipeline (a removed code fence splices a bare
`{"name": ...}` block together) and for `extract_final_response` alone (a
removed `<tool_call>` block splices a new one together). -/
theorem C9_counterexample :
    stripResponse (stripResponse "\x7b \"na```q```me\": \"x\" \x7d")
        ≠ stripResponse "\x7b \"na```q```me\": \"x\" \x7d" ∧
      extract_final_response (extract_final_response
          "<tool_<tool_call>x</tool_call>call>y</tool_call>")
        ≠ extract_final_response "<tool_<tool_call>x</tool_call>call>y</tool_call>" := by
  constructor
  · decide
  · decide

theorem C9_witness :
    extract_final_response "  Olá, tudo bem?  " = "Olá, tudo bem?" := by
  have h := C9_strip_preserves_prose "  Olá, tudo bem?  "
    (matcher_none_all tcBlockLen _ (by decide) rfl)
    (matcher_none_all bareLen _ (by decide) rfl)
  rw [h]
  decide

/-! ## Retrying invoker (`call_tool_with_retries` in `src/client/main.py`)

The loop runs `attempt = 1 .. max_retries`; a success returns immediately
with `(result, None)`, a failure records `last_error`, sleeps, and
continues; after the loop the function returns `(None, last_error)`. The
embedding also returns the list of attempt numbers actually performed (each
loop iteration invokes the handler exactly once). -/

/-- The retry loop from a given attempt number, with the recorded last
error. `call i` is the outcome of attempt `i` (`Except.error` models a
raised exception). -/
def retryFrom {E R : Type} (call : Nat → Except E R) (maxRetries : Nat) :
    Nat → Option E → (Option R × Option E) × List Nat
  | attempt, lastErr =>
    if attempt > maxRetries then ((none, lastErr), [])
    else
      match call attempt with
      | .ok r => ((some r, none), [attempt])
      | .error e =>
        let next := retryFrom call maxRetries (attempt + 1) (some e)
        (next.1, attempt :: next.2)
termination_by attempt _ => maxRetries + 1 - attempt
decreasing_by simp_all; omega

/-- `call_tool_with_retries(mcp_client, name, input_args, max_retries=3)`. -/
def call_tool_with_retries {E R : Type} (call : Nat → Except E R)
    (maxRetries : Nat := 3) : (Option R × Option E) × List Nat :=
  retryFrom call maxRetries 1 none

/-- Claim C6 (confirmed): with the default budget of 3 — when every attempt
fails, the invoker performs exactly the three sequential attempts 1, 2, 3
and returns `(None, last_error)` carrying the third attempt's failure; when
attempt `k ≤ 3` succeeds after failures, it returns the success with no
error after exactly the attempts `1, ..., k`, never invoking the handler
again after the first success. -/
theorem C6_retry_behavior {E R : Type} (call : Nat → Except E R) :
    (∀ e1 e2 e3, call 1 = .error e1 → call 2 = .error e2 → call 3 = .error e3 →
      call_tool_with_retries call 3 = ((none, some e3), [1, 2, 3])) ∧
    (∀ r, call 1 = .ok r → call_tool_with_retries call 3 = ((some r, none), [1])) ∧
    (∀ e1 r, call 1 = .error e1 → call 2 = .ok r →
      call_tool_with_retries call 3 = ((some r, none), [1, 2])) ∧
    (∀ e1 e2 r, call 1 = .error e1 → call 2 = .error e2 → call 3 = .ok r →
      call_tool_with_retries call 3 = ((some r, none), [1, 2, 3])) := by
  refine ⟨?_, ?_, ?_, ?_⟩
  · intro e1 e2 e3 h1 h2 h3
    rw [call_tool_with_retries, retryFrom]
    simp only [h1]
    rw [retryFrom]
    simp only [h2]
    rw [retryFrom]
    simp only [h3]
    rw [retryFrom]
    simp
  · intro r h1
    rw [call_tool_with_retries, retryFrom]
    simp [h1]
  · intro e1 r h1 h2
    rw [call_tool_with_retries, retryFrom]
    simp only [h1]
    rw [retryFrom]
    simp [h2]
  · intro e1 e2 r h1 h2 h3
    rw [call_tool_with_retries, retryFrom]
    simp only [h1]
    rw [retryFrom]
    simp only [h2]
    rw [retryFrom]
    simp [h3]

theorem C6_witness :
    call_tool_with_retries
        (fun i => if i ≤ 2 then Except.error "timeout" else Except.ok 42) 3
      = ((some 42, none), [1, 2, 3]) ∧
    call_tool_with_retries
        (fun _ => (Except.error "down" : Except String Nat)) 3
      = ((none, some "down"), [1, 2, 3]) :=
  ⟨(C6_retry_behavior (fun i => if i ≤ 2 then Except.error "timeout" else Except.ok 42)).2.2.2
      "timeout" "timeout" 42 rfl rfl rfl,
    (C6_retry_behavior (fun _ => (Except.error "down" : Except String Nat))).1
      "down" "down" "down" rfl rfl rfl⟩

/-! ## Ordinal reference resolution (`main_async` lines 340-348)

The loop guards on a non-empty `last_vehicle_list`, checks
`1 <= idx <= len(last_vehicle_list)`, and reads `last_vehicle_list[idx-1]`;
out-of-range positions produce the not-found message (absent). -/

/-- Resolve a 1-based position against the current referenceable result
set: absent on an empty set or an out-of-range position, never an error. -/
def resolve_ordinal {α : Type} (idx : Nat) (items : List α) : Option α :=
  if items.isEmpty then none
  else if 1 ≤ idx ∧ idx ≤ items.length then items.get? (idx - 1)
  else none

/-- Claim C10 (confirmed): ordinal resolution is total — on an empty set it
is absent for every position; on a non-empty set it returns exactly the
element at 1-based position `n` when `1 ≤ n ≤ length`, and absent when
`n = 0` or `n` exceeds the length. -/
theorem C10_resolve_ordinal {α : Type} :
    (∀ n : Nat, resolve_ordinal n ([] : List α) = none) ∧
    (∀ (n : Nat) (items : List α) (h1 : 1 ≤ n) (h2 : n ≤ items.length),
      resolve_ordinal n items = some (items.get ⟨n - 1, by omega⟩)) ∧
    (∀ (items : List α), resolve_ordinal 0 items = none) ∧
    (∀ (n : Nat) (items : List α), items.length < n → resolve_ordinal n items = none) := by
  refine ⟨?_, ?_, ?_, ?_⟩
  · intro n
    simp [resolve_ordinal]
  · intro n items h1 h2
    have hne : items.isEmpty = false := by
      cases items with
      | nil => simp at h2; omega
      | cons x xs => rfl
    rw [resolve_ordinal, hne]
    simp only [Bool.false_eq_true, if_false]
    rw [if_pos (show 1 ≤ n ∧ n ≤ items.length from ⟨h1, h2⟩)]
    rw [List.get?_eq_getElem?, List.getElem?_eq_getElem (by omega)]
    simp [List.get_eq_getElem]
  · intro items
    simp [resolve_ordinal]
  · intro n items hlt
    rw [resolve_ordinal]
    by_cases he : items.isEmpty
    · rw [he]
      simp
    · rw [if_neg (by simp [he]), if_neg (by omega)]

theorem C10_witness :
    resolve_ordinal 3 [10, 20, 30, 40, 50] = some 30 ∧
    resolve_ordinal 0 [10, 20, 30, 40, 50] = none ∧
    resolve_ordinal 6 [10, 20, 30, 40, 50] = none ∧
    resolve_ordinal 4 ([] : List Nat) = none :=
  ⟨by rw [C10_resolve_ordinal.2.1 3 [10, 20, 30, 40, 50] (by decide) (by decide)]; rfl,
    C10_resolve_ordinal.2.2.1 [10, 20, 30, 40, 50],
    C10_resolve_ordinal.2.2.2 6 [10, 20, 30, 40, 50] (by decide),
    C10_resolve_ordinal.1 4⟩

/-! ## Server: the JSON-RPC dispatcher (`mcp_endpoint` in `src/server/main.py`) -/

/-- JSON-RPC error object. -/
structure JSONRPCError where
  code : Int
  message : String
  data : Option Json
deriving DecidableEq

/-- JSON-RPC response together with the HTTP status the endpoint sets. -/
structure JSONRPCResponse where
  status : Nat
  result : Option Json
  error : Option JSONRPCError
  id : Option Json
deriving DecidableEq

/-- The raw request body, before pydantic validation. The model keeps the
`jsonrpc` and `method` fields as optional strings (present-and-string or
absent); `params` and `id` are arbitrary JSON or absent. -/
structure RawPayload where
  jsonrpc : Option String
  method : Option String
  params : Option Json
  id : Option Json

/-- The validated request (`JSONRPCRequest`): `jsonrpc` must equal the
literal `"2.0"` and `method` must be present; no further constraint — in
particular an empty `method` string validates. -/
structure JSONRPCRequest where
  method : String
  params : Option Json
  id : Option Json

/-- Pydantic validation of the envelope. -/
def validateRequest (p : RawPayload) : Option JSONRPCRequest :=
  match p.jsonrpc, p.method with
  | some ver, some m => if ver = "2.0" then some ⟨m, p.params, p.id⟩ else none
  | _, _ => none

/-- The tool registry's handler side: invoking a registered tool against the
database, abstracted as a name- and argument-indexed outcome
(`Except.error` models a raised exception, including argument-validation
errors inside the `tools/call` try block). -/
structure ToolEnv where
  run : String → Json → Except String Json

/-- The names registered in `MCP_METHODS` (lines 51-59). -/
def MCP_METHOD_NAMES : List String :=
  ["buscar_veiculos", "listar_marcas", "listar_modelos", "obter_range_anos",
   "obter_range_precos", "listar_cores_disponiveis", "obter_range_km"]

/-- Python `req.params.get(key) if req.params else fallback`: a falsy
`params` yields the fallback, a truthy non-dict raises, a dict yields the
value or `None`. -/
def pyParamsGet (params : Option Json) (key : String) (fallback : Json) :
    Except String Json :=
  match params with
  | none => .ok fallback
  | some p =>
    if p.truthy then
      match p with
      | .obj fs => .ok ((jLookup fs key).getD .null)
      | _ => .error "AttributeError"
    else .ok fallback

/-- Python `d.get(key, fallback)`: raises unless `d` is a dict. -/
def pyDictGet (d : Json) (key : String) (fallback : Json) : Except String Json :=
  match d with
  | .obj fs => .ok ((jLookup fs key).getD fallback)
  | _ => .error "AttributeError"

/-- Python `str(x)` rendering used in f-strings; containers are rendered by
their JSON text (an inert abbreviation — no theorem depends on it). -/
def pyStr : Json → String
  | .str s => s
  | .null => "None"
  | .bool true => "True"
  | .bool false => "False"
  | .num i => String.mk (intChars i)
  | v => String.mk (jdump v)

/-- Insert thousands separators scanning the reversed digit list. -/
def addCommas : List Char → Nat → List Char
  | [], _ => []
  | c :: cs, k =>
    if k = 3 then ',' :: c :: addCommas cs 1 else c :: addCommas cs (k + 1)

/-- Python `f"{x:,}"`: comma-grouped integers; bools format as their
integer value; other values raise. -/
def pyCommaFmt : Json → Except String String
  | .num i =>
    .ok (String.mk ((if i < 0 then ['-'] else []) ++
      (addCommas (natDigs i.natAbs []).reverse 0).reverse))
  | .bool b => .ok (if b then "1" else "0")
  | _ => .error "ValueError"

/-- Prompt argument descriptor entries in `prompts/list`. -/
structure PromptArgSpec where
  name : String
  description : String
  required : Bool

/-- Prompt catalog descriptor in `prompts/list`. -/
structure PromptDescriptor where
  name : String
  description : String
  argumentSpecs : List PromptArgSpec

/-- The prompt catalog advertised by `prompts/list` (lines 137-189). -/
def prompts : List PromptDescriptor :=
  [⟨"search_intro", "Mensagem de introdução para iniciar a busca de veículos.", []⟩,
   ⟨"filters_summary", "Resumo dos filtros aplicados na busca.",
     [⟨"filters", "Dicionário dos filtros aplicados", true⟩]⟩,
   ⟨"search_result_summary", "Resumo dos resultados encontrados na busca.",
     [⟨"vehicle_count", "Quantidade de veículos encontrados", true⟩,
      ⟨"min_price", "Preço mínimo", false⟩,
      ⟨"max_price", "Preço máximo", false⟩,
      ⟨"min_km", "Quilometragem mínima", false⟩,
      ⟨"max_km", "Quilometragem máxima", false⟩]⟩,
   ⟨"no_results", "Mensagem exibida quando nenhum veículo é encontrado.",
     [⟨"filters", "Dicionário dos filtros aplicados", false⟩]⟩,
   ⟨"vehicle_details", "Mensagem para detalhar um veículo específico.",
     [⟨"vehicle", "Dicionário com os dados do veículo", true⟩]⟩,
   ⟨"suggest_more_filters", "Sugere ao usuário adicionar mais filtros para refinar a busca.",
     [⟨"suggested_filters", "Lista de filtros sugeridos", false⟩]⟩,
   ⟨"action_confirmation", "Mensagem de confirmação após uma ação do usuário.",
     [⟨"action", "Ação realizada", true⟩]⟩]

/-- The names `prompts/list` advertises. -/
def listedPromptNames : List String := prompts.map PromptDescriptor.name

/-- JSON shape of one prompt argument descriptor. -/
def promptArgJson (a : PromptArgSpec) : Json :=
  .obj [("name", .str a.name), ("description", .str a.description),
    ("required", .bool a.required)]

/-- JSON shape of one prompt descriptor. -/
def promptJson (p : PromptDescriptor) : Json :=
  .obj [("name", .str p.name), ("description", .str p.description),
    ("arguments", .arr (p.argumentSpecs.map promptArgJson))]

/-- The `prompts/list` result. -/
def promptsListResult : Json :=
  .obj [("prompts", .arr (prompts.map promptJson)), ("nextCursor", .null)]

/-- Tool names with their input-schema property names; the free-text
description strings of `tools/list` are elided as inert data. -/
def toolSchemas : List (String × List String) :=
  [("buscar_veiculos", ["search_text", "brand", "model", "year_min", "year_max",
      "price_min", "price_max", "km_min", "km_max", "fuel_type", "color",
      "doors", "transmission"]),
   ("listar_marcas", []),
   ("listar_modelos", ["brands"]),
   ("obter_range_anos", []),
   ("obter_range_precos", []),
   ("listar_cores_disponiveis", []),
   ("obter_range_km", [])]

/-- The `tools/list` result. -/
def toolsListResult : Json :=
  .obj [("tools", .arr (toolSchemas.map (fun np =>
      .obj [("name", .str np.1),
        ("inputSchema", .obj [("type", .str "object"),
          ("properties", .obj (np.2.map (fun p => (p, Json.obj []))))])]))),
    ("nextCursor", .null)]

/-- The `prompts/get` branch (lines 191-208): only the unlisted names
`car_search_intro` and `car_search_result` render; every other name gets
error -32602 "Unknown prompt name". There is no required-argument check. -/
def prompts_get (params : Option Json) (reqId : Option Json) :
    Except String JSONRPCResponse := do
  let nameV ← pyParamsGet params "name" .null
  let argumentsV ← pyParamsGet params "arguments" (.obj [])
  if nameV = .str "car_search_intro" then
    let userName ← pyDictGet argumentsV "user_name" (.str "")
    let mid ←
      if userName.truthy then
        match userName with
        | .str s => pure (", " ++ s)
        | _ => Except.error "TypeError"
      else pure ""
    let text := "Olá" ++ mid ++
      "! Vamos encontrar o carro ideal para você. Me conte o que procura!"
    pure ⟨200, some (.obj [("description", .str "Prompt de introdução"),
      ("messages", .arr [.obj [("role", .str "assistant"), ("content", .str text)]])]),
      none, reqId⟩
  else if nameV = .str "car_search_result" then
    let vehicleCount ← pyDictGet argumentsV "vehicle_count" (.num 0)
    let minKm ← pyDictGet argumentsV "min_km" .null
    let maxKm ← pyDictGet argumentsV "max_km" .null
    let text ←
      if minKm ≠ .null ∧ maxKm ≠ .null then do
        let minS ← pyCommaFmt minKm
        let maxS ← pyCommaFmt maxKm
        pure ("Encontrei " ++ pyStr vehicleCount ++
          " veículo(s) compatível(is) com sua busca. A quilometragem dos veículos disponíveis varia de "
          ++ minS ++ " km a " ++ maxS ++ " km. Veja os detalhes abaixo.")
      else
        pure ("Encontrei " ++ pyStr vehicleCount ++
          " veículo(s) compatível(is) com sua busca. Veja os detalhes abaixo.")
    pure ⟨200, some (.obj [("description", .str "Prompt de resultado"),
      ("messages", .arr [.obj [("role", .str "assistant"), ("content", .str text)]])]),
      none, reqId⟩
  else
    pure ⟨200, none, some ⟨-32602, "Unknown prompt name", none⟩, reqId⟩

/-- The `tools/call` branch (lines 209-267): parameter extraction happens
before the `try` block (its exceptions propagate to the outer handler),
registry membership is checked, and any handler exception is caught locally
and reported as `-32603` with the exception text appended to the message;
the error's `data` field is not set. -/
def tools_call (env : ToolEnv) (params : Option Json) (reqId : Option Json) :
    Except String JSONRPCResponse := do
  let nameV ← pyParamsGet params "name" .null
  let argumentsV ← pyParamsGet params "arguments" (.obj [])
  match nameV with
  | .str n =>
    if n ∈ MCP_METHOD_NAMES then
      match env.run n argumentsV with
      | .ok v => pure ⟨200, some v, none, reqId⟩
      | .error e => pure ⟨500, none, some ⟨-32603, "Internal error: " ++ e, none⟩, reqId⟩
    else pure ⟨400, none, some ⟨-32601, "Tool not found: " ++ n, none⟩, reqId⟩
  | other => pure ⟨400, none, some ⟨-32601, "Tool not found: " ++ pyStr other, none⟩, reqId⟩

/-- The direct-method dispatch after the four structural methods (lines
268-300): methods outside the registry get -32601; of the seven registered
names only five have a branch, and the final `else` answers -32601 "Method
not found" for the remaining two even though they passed the registry
check. Exceptions here have no local handler and propagate to the outer
one. -/
def direct_dispatch (env : ToolEnv) (req : JSONRPCRequest) :
    Except String JSONRPCResponse := do
  if req.method ∉ MCP_METHOD_NAMES then
    pure ⟨400, none, some ⟨-32601, "Method not found: " ++ req.method, none⟩, req.id⟩
  else if req.method = "buscar_veiculos" then
    let v ← env.run req.method (req.params.getD .null)
    pure ⟨200, some v, none, req.id⟩
  else if req.method = "listar_marcas" then
    let v ← env.run req.method (req.params.getD .null)
    pure ⟨200, some v, none, req.id⟩
  else if req.method = "listar_modelos" then
    let v ← env.run req.method (req.params.getD .null)
    pure ⟨200, some v, none, req.id⟩
  else if req.method = "obter_range_anos" then
    let v ← env.run req.method (req.params.getD .null)
    pure ⟨200, some v, none, req.id⟩
  else if req.method = "obter_range_precos" then
    let v ← env.run req.method (req.params.getD .null)
    pure ⟨200, some v, none, req.id⟩
  else
    pure ⟨400, none, some ⟨-32601, "Method not found: " ++ req.method, none⟩, req.id⟩

/-- The `/mcp` endpoint. Envelope validation failure raises a plain
pydantic `ValidationError` inside the handler's try block; that class is
not `RequestValidationError`, so the `except RequestValidationError` re-raise
at line 301 does not match it and the generic `except Exception` at line 303
answers -32603 "Internal error" at HTTP 500 with `str(e)` in `data` and
`payload.get("id")` as the id — the registered -32600
`validation_exception_handler` never fires for this endpoint. Pydantic's
`str(e)` prose is version-dependent and abstracted here to a constant; no
theorem below reads it. A validated request is routed through the four
structural methods, then direct tool dispatch; any exception escaping a
branch reaches the same outer -32603 handler with the exception text in
`data`. -/
def mcp_endpoint (env : ToolEnv) (p : RawPayload) : JSONRPCResponse :=
  match validateRequest p with
  | none =>
    ⟨500, none,
      some ⟨-32603, "Internal error", some (.str "validation error for JSONRPCRequest")⟩,
      p.id⟩
  | some req =>
    let branch : Except String JSONRPCResponse :=
      if req.method = "tools/list" then
        .ok ⟨200, some toolsListResult, none, req.id⟩
      else if req.method = "prompts/list" then
        .ok ⟨200, some promptsListResult, none, req.id⟩
      else if req.method = "prompts/get" then prompts_get req.params req.id
      else if req.method = "tools/call" then tools_call env req.params req.id
      else direct_dispatch env req
    match branch with
    | .ok resp => resp
    | .error e => ⟨500, none, some ⟨-32603, "Internal error", some (.str e)⟩, p.id⟩

/-- A trivial handler environment for closed evaluations. -/
def env0 : ToolEnv := ⟨fun _ _ => .ok .null⟩

/-- A handler environment in which every tool raises. -/
def envRaise (msg : String) : ToolEnv := ⟨fun _ _ => .error msg⟩

/-- Claim C1 (code bug, evidence): every prompt name advertised by
`prompts/list` is rejected by `prompts/get` with -32602 "Unknown prompt
name" — the rendering branches only recognize the unlisted names
`car_search_intro` and `car_search_result`, and no required-argument check
ever produces a -32602 with the missing key in `data`. -/
theorem C1_listed_prompts_unrenderable (env : ToolEnv) (name : String)
    (h : name ∈ listedPromptNames) :
    mcp_endpoint env ⟨some "2.0", some "prompts/get",
        some (.obj [("name", .str name)]), some (.num 1)⟩
      = ⟨200, none, some ⟨-32602, "Unknown prompt name", none⟩, some (.num 1)⟩ := by
  fin_cases h <;> rfl

theorem C1_witness :
    "search_intro" ∈ listedPromptNames ∧
    mcp_endpoint env0 ⟨some "2.0", some "prompts/get",
        some (.obj [("name", .str "search_intro")]), some (.num 1)⟩
      = ⟨200, none, some ⟨-32602, "Unknown prompt name", none⟩, some (.num 1)⟩ :=
  ⟨by decide, C1_listed_prompts_unrenderable env0 "search_intro" (by decide)⟩

/-- Claim C2 (amended): when a registered tool's handler raises during
`tools/call`, the dispatcher catches the exception and returns a structured
-32603 response — so the exception never reaches the transport layer — but
the exception text is appended to the error's `message`
(`"Internal error: <msg>"`) and the `data` field is left empty, not set to
the message text as the original claim stated. -/
theorem C2_handler_exception_to_32603 (env : ToolEnv) (name : String) (args : Json)
    (rid : Option Json) (e : String) (hmem : name ∈ MCP_METHOD_NAMES)
    (herr : env.run name args = .error e) :
    mcp_endpoint env ⟨some "2.0", some "tools/call",
        some (.obj [("name", .str name), ("arguments", args)]), rid⟩
      = ⟨500, none, some ⟨-32603, "Internal error: " ++ e, none⟩, rid⟩ := by
  simp [mcp_endpoint, validateRequest, tools_call, pyParamsGet, Json.truthy, jLookup,
    hmem, herr, bind, Except.bind, pure, Except.pure]

theorem C2_witness :
    "listar_marcas" ∈ MCP_METHOD_NAMES ∧
    mcp_endpoint (envRaise "boom") ⟨some "2.0", some "tools/call",
        some (.obj [("name", .str "listar_marcas"), ("arguments", .obj [])]), some (.num 2)⟩
      = ⟨500, none, some ⟨-32603, "Internal error: boom", none⟩, some (.num 2)⟩ :=
  ⟨by decide,
    C2_handler_exception_to_32603 (envRaise "boom") "listar_marcas" (.obj []) (some (.num 2))
      "boom" (by decide) rfl⟩

/-- Claim C2 counterexample: for a registered tool whose handler raises
"boom", the returned -32603 error carries an empty `data` field — the
exception text lives in the `message` — so the claim that the message text
is carried in `data` fails at this input. -/
theorem C2_counterexample :
    (mcp_endpoint (envRaise "boom") ⟨some "2.0", some "tools/call",
        some (.obj [("name", .str "listar_marcas"), ("arguments", .obj [])]),
        some (.num 2)⟩).error.map JSONRPCError.data
      ≠ some (some (.str "boom")) ∧
    (mcp_endpoint (envRaise "boom") ⟨some "2.0", some "tools/call",
        some (.obj [("name", .str "listar_marcas"), ("arguments", .obj [])]),
        some (.num 2)⟩).error.map JSONRPCError.code
      = some (-32603) := by
  constructor
  · decide
  · decide

/-- Claim C3 (code bug, evidence): a malformed envelope — `jsonrpc` missing
or different from the literal `"2.0"`, or `method` missing — is answered
with -32603 "Internal error" at HTTP 500, never the claimed -32600 "Invalid
Request": the plain pydantic `ValidationError` raised by
`JSONRPCRequest(**payload)` is not a `RequestValidationError`, so the
registered -32600 handler never fires for this endpoint and the generic
`except Exception` builds the response. The registry is still never
consulted (the response is identical under every handler environment). A
present, empty-string `method`, moreover, passes envelope validation and is
answered with -32601 "Method not found: ", a second divergence from the
claim. -/
theorem C3_invalid_envelope_misrouted :
    (∀ (env env2 : ToolEnv) (p : RawPayload),
      (p.jsonrpc ≠ some "2.0" ∨ p.method = none) →
      (mcp_endpoint env p).status = 500 ∧
        (mcp_endpoint env p).result = none ∧
        (mcp_endpoint env p).error.map JSONRPCError.code = some (-32603) ∧
        (mcp_endpoint env p).error.map JSONRPCError.message = some "Internal error" ∧
        (mcp_endpoint env p).id = p.id ∧
        mcp_endpoint env p = mcp_endpoint env2 p) ∧
    (∀ (env : ToolEnv) (params : Option Json) (rid : Option Json),
      mcp_endpoint env ⟨some "2.0", some "", params, rid⟩
        = ⟨400, none, some ⟨-32601, "Method not found: ", none⟩, rid⟩) := by
  constructor
  · intro env env2 p hbad
    have hv : validateRequest p = none := by
      rw [validateRequest]
      cases hjp : p.jsonrpc with
      | none => cases p.method <;> rfl
      | some ver =>
        cases hmp : p.method with
        | none => rfl
        | some m =>
          rcases hbad with hj | hm
          · simp only []
            rw [if_neg (by rintro rfl; exact hj hjp)]
          · rw [hmp] at hm
            exact absurd hm (by simp)
    rw [mcp_endpoint, hv, mcp_endpoint, hv]
    exact ⟨rfl, rfl, rfl, rfl, rfl, rfl⟩
  · intro env params rid
    simp [mcp_endpoint, validateRequest, direct_dispatch, MCP_METHOD_NAMES,
      bind, Except.bind, pure, Except.pure]

theorem C3_witness :
    (mcp_endpoint env0 ⟨some "1.0", some "tools/list", none, some (.num 7)⟩).status = 500 ∧
    (mcp_endpoint env0 ⟨some "1.0", some "tools/list", none,
        some (.num 7)⟩).error.map JSONRPCError.code = some (-32603) ∧
    mcp_endpoint env0 ⟨some "1.0", some "tools/list", none, some (.num 7)⟩
      = mcp_endpoint (envRaise "x") ⟨some "1.0", some "tools/list", none, some (.num 7)⟩ ∧
    (mcp_endpoint env0 ⟨none, none, none, none⟩).error.map JSONRPCError.code
      = some (-32603) ∧
    mcp_endpoint env0 ⟨some "2.0", some "", none, some (.num 8)⟩
      = ⟨400, none, some ⟨-32601, "Method not found: ", none⟩, some (.num 8)⟩ :=
  ⟨(C3_invalid_envelope_misrouted.1 env0 (envRaise "x") ⟨some "1.0", some "tools/list",
      none, some (.num 7)⟩ (Or.inl (by decide))).1,
    (C3_invalid_envelope_misrouted.1 env0 (envRaise "x") ⟨some "1.0", some "tools/list",
      none, some (.num 7)⟩ (Or.inl (by decide))).2.2.1,
    (C3_invalid_envelope_misrouted.1 env0 (envRaise "x") ⟨some "1.0", some "tools/list",
      none, some (.num 7)⟩ (Or.inl (by decide))).2.2.2.2.2,
    (C3_invalid_envelope_misrouted.1 env0 env0 ⟨none, none, none, none⟩
      (Or.inr rfl)).2.2.1,
    C3_invalid_envelope_misrouted.2 env0 none (some (.num 8))⟩

/-- Claim C5 (code bug, evidence): `listar_cores_disponiveis` and
`obter_range_km` are registered in `MCP_METHODS` — so they pass the
registry membership check — yet when sent as the top-level method they fall
through the five-branch dispatch chain into the final `else` and get
-32601 "Method not found", for every handler environment and params. -/
theorem C5_registered_methods_unrouted (env : ToolEnv) (params : Option Json)
    (rid : Option Json) :
    ("listar_cores_disponiveis" ∈ MCP_METHOD_NAMES ∧
      "obter_range_km" ∈ MCP_METHOD_NAMES) ∧
    mcp_endpoint env ⟨some "2.0", some "listar_cores_disponiveis", params, rid⟩
      = ⟨400, none,
          some ⟨-32601, "Method not found: listar_cores_disponiveis", none⟩, rid⟩ ∧
    mcp_endpoint env ⟨some "2.0", some "obter_range_km", params, rid⟩
      = ⟨400, none, some ⟨-32601, "Method not found: obter_range_km", none⟩, rid⟩ := by
  refine ⟨⟨by decide, by decide⟩, ?_, ?_⟩ <;>
    simp [mcp_endpoint, validateRequest, direct_dispatch, MCP_METHOD_NAMES,
      bind, Except.bind, pure, Except.pure]

/-! ## Client agent loop state (`main_async` in `src/client/main.py`)

One loop iteration, embedded as a state transition. The language model and
the retried tool invocation are oracles (`llmChat`, `toolCall`); printing
has no state effect and is dropped; the ordinal index extracted from the
user input by `extract_vehicle_id_from_question` (a regex over the input)
is supplied as an argument. The conversation transcript and the
`last_vehicle_list` result set are the loop's mutable state. -/

/-- One transcript entry: role, optional tool name, content. -/
structure Turn where
  role : String
  name : Option String
  content : String
deriving DecidableEq

/-- The loop's mutable state: the transcript and the referenceable result
set `last_vehicle_list`. -/
structure AgentState where
  conversation : List Turn
  lastVehicleList : List Json
deriving DecidableEq

/-- The state effect of `print_vehicle_list_aligned(vehicles)` — the only
writer of `last_vehicle_list` in the program: an empty listing clears the
set, a non-empty one replaces it. The function is defined at lines 82-129
but never invoked anywhere. -/
def print_vehicle_list_aligned (vehicles : List Json) (s : AgentState) : AgentState :=
  if vehicles.isEmpty then ⟨s.conversation, []⟩
  else ⟨s.conversation, vehicles⟩

/-- `format_tool_result_for_llm(tool_name, tool_result)`: vehicle searches
are serialized whole; other dict results are unwrapped at `result` first. -/
def format_tool_result_for_llm (toolName : Json) (toolResult : Json) : String :=
  if toolName = .str "buscar_veiculos" then String.mk (jdump toolResult)
  else
    match toolResult with
    | .obj fs =>
      match jLookup fs "result" with
      | some inner => String.mk (jdump inner)
      | none => String.mk (jdump toolResult)
    | v => String.mk (jdump v)

/-- The summary instruction appended after a vehicle search. -/
def resumeInstruction : String :=
  "Resuma para o usuário a lista de veículos que foi encontrada e exibida. Pergunte se ele deseja mais detalhes sobre algum deles."

/-- The apology shown when the tool invocation exhausts its retries. -/
def toolErrorApology : String :=
  "Desculpe, ocorreu um erro ao tentar consultar a informação. Tente novamente."

/-- One iteration of the agent loop (lines 333-423), as a state transition.
`llmChat` is the model oracle; `toolCall` is the retried tool invocation
returning `(result, error)`; `toolsPrompt` is the per-turn system message
describing the tools; `ordinalIdx` is the vehicle index the id-question
regex extracted from the user input, if any. -/
def main_async_turn (llmChat : List Turn → String)
    (toolCall : Json → Json → Option Json × Option String)
    (toolsPrompt : String) (userInput : String) (ordinalIdx : Option Nat)
    (s : AgentState) : AgentState :=
  if (String.mk (pyStripChars userInput.data)).toLower = "exit" ∨
      (String.mk (pyStripChars userInput.data)).toLower = "quit" then s
  else if ordinalIdx.isSome ∧ ¬s.lastVehicleList.isEmpty then s
  else
      let conv1 := s.conversation ++ [⟨"user", none, userInput⟩]
      let llmResp := llmChat (conv1 ++ [⟨"system", none, toolsPrompt⟩])
      let plainBranch : AgentState :=
        ⟨conv1 ++ [⟨"assistant", none, llmResp⟩], s.lastVehicleList⟩
      match parse_tool_call llmResp with
      | none => plainBranch
      | some tc =>
        if tc.truthy then
          match tc with
          | .obj fs =>
            match jLookup fs "name" with
            | none => ⟨conv1, s.lastVehicleList⟩
            | some nameV =>
              let inputV := (jLookup fs "input").getD (.obj [])
              match toolCall nameV inputV with
              | (some toolResult, _) =>
                let conv2 := conv1 ++ [⟨"assistant", none, llmResp⟩,
                  ⟨"tool", some (pyStr nameV), format_tool_result_for_llm nameV toolResult⟩]
                let msgs := conv2 ++
                  (if nameV = .str "buscar_veiculos" then
                    [⟨"system", none, resumeInstruction⟩]
                  else [])
                let finalResp := llmChat msgs
                ⟨conv2 ++ [⟨"assistant", none, finalResp⟩], s.lastVehicleList⟩
              | (none, _) =>
                ⟨conv1 ++ [⟨"assistant", none, toolErrorApology⟩], s.lastVehicleList⟩
          | _ => ⟨conv1, s.lastVehicleList⟩
        else plainBranch

/-- Claim C4 (code bug, evidence): no iteration of the agent loop ever
updates the ReferenceableResultSet — `print_vehicle_list_aligned`, the only
writer of `last_vehicle_list`, is never called, so even a turn whose
`buscar_veiculos` call returns a non-empty vehicle list leaves the set
unchanged (empty forever), while the orphaned writer itself does implement
the claimed replace/clear behavior. -/
theorem C4_result_set_never_updated :
    (∀ (llmChat : List Turn → String)
      (toolCall : Json → Json → Option Json × Option String)
      (toolsPrompt userInput : String) (ordinalIdx : Option Nat) (s : AgentState),
      (main_async_turn llmChat toolCall toolsPrompt userInput ordinalIdx s).lastVehicleList
        = s.lastVehicleList) ∧
    (∀ (vehicles : List Json) (s : AgentState), vehicles ≠ [] →
      (print_vehicle_list_aligned vehicles s).lastVehicleList = vehicles) ∧
    (∀ s : AgentState, (print_vehicle_list_aligned [] s).lastVehicleList = []) := by
  refine ⟨?_, ?_, ?_⟩
  · intro llmChat toolCall toolsPrompt userInput ordinalIdx s
    rw [main_async_turn]
    dsimp only
    repeat' split
    all_goals rfl
  · intro vehicles s hne
    rw [print_vehicle_list_aligned, if_neg (by simpa using hne)]
  · intro s
    rfl

theorem C4_witness :
    (main_async_turn (fun _ => "resposta")
        (fun _ _ => (some (.arr [.obj [("id", .str "uuid-1")]]), none))
        "tools" "quero um carro" none ⟨[], []⟩).lastVehicleList = [] ∧
    (print_vehicle_list_aligned [.obj [("id", .str "uuid-1")]]
        ⟨[], []⟩).lastVehicleList = [.obj [("id", .str "uuid-1")]] :=
  ⟨C4_result_set_never_updated.1 (fun _ => "resposta")
      (fun _ _ => (some (.arr [.obj [("id", .str "uuid-1")]]), none))
      "tools" "quero um carro" none ⟨[], []⟩,
    C4_result_set_never_updated.2.1 [.obj [("id", .str "uuid-1")]] ⟨[], []⟩ (by decide)⟩
